import Mathlib

/-!
Shallow embedding of the lectures-on-tap push notification backend (Go).

The definitions below are translated from the Go sources:
- `backend-go/internal/domain/subscription.go` (domain types, topic
  normalization),
- `backend-go/internal/store/postgres.go` together with
  `backend-go/migrations/0001_create_push_subscriptions.sql` (the
  `push_subscriptions` table and its endpoint-keyed upsert),
- `backend-go/internal/ratelimit/limiter.go` (sliding-window limiter),
- the `push` package dispatcher (`sendWithRetry`, `backoffDuration`),
- the `service` package (`ValidateUICode`, `ValidateHubSecret`,
  `secureCompare`, `TriggerTopic`),
- the `httpapi` package handlers (`subscribe`, `subscriptionMe`,
  `buildSubscription`, `firstNonEmpty`).

Machine integers are modelled as `Nat`/`Int`; timestamps are `Int` time
units; byte payloads are `List Nat`.  Database rows live in a `List`
mirroring the SQL table; the SQL `NOW()` is an explicit `now : Int`
argument.
-/

namespace LecturesOnTap

/-! ## Domain (backend-go/internal/domain/subscription.go) -/

def DefaultTopic : String := "default"

structure Subscription where
  Endpoint : String
  P256DH : String
  Auth : String
  Topics : List String
  deriving DecidableEq, Repr

/-- Go `domain.NormalizeTopic`: an empty topic resolves to the literal
`"default"`, otherwise the topic string is used verbatim. -/
def NormalizeTopic (topic : String) : String :=
  if topic = "" then DefaultTopic else topic

/-! ## Store (backend-go/internal/store/postgres.go, migration 0001)

One row of the `push_subscriptions` table.  `created_at`/`updated_at`
are `TIMESTAMPTZ`; here they are `Int` time units. -/

structure StoreRow where
  endpoint : String
  p256dh : String
  auth : String
  topics : List String
  created_at : Int
  updated_at : Int
  deriving DecidableEq, Repr

def rowTopics (r : StoreRow) : List String := r.topics

/-- Go `Postgres.UpsertSubscription`: a pre-check `SELECT EXISTS` on the
endpoint, then `INSERT ... ON CONFLICT (endpoint) DO UPDATE SET p256dh,
auth, topics, updated_at = NOW()`.  The `INSERT` supplies
`created_at = NOW()` and the column default supplies
`updated_at = NOW()`; the conflict branch leaves `created_at` alone.
Returns `!exists`. -/
def UpsertSubscription (table : List StoreRow) (s : Subscription) (now : Int) :
    Bool × List StoreRow :=
  let rowExists := table.any (fun r => r.endpoint == s.Endpoint)
  let table' :=
    if rowExists then
      table.map (fun r =>
        if r.endpoint == s.Endpoint then
          { r with p256dh := s.P256DH, auth := s.Auth,
                   topics := s.Topics, updated_at := now }
        else r)
    else
      table ++ [{ endpoint := s.Endpoint, p256dh := s.P256DH, auth := s.Auth,
                  topics := s.Topics, created_at := now, updated_at := now }]
  (!rowExists, table')

/-- Go `Postgres.DeleteByEndpoint`: `DELETE FROM push_subscriptions WHERE
endpoint = $1`.  Idempotent. -/
def DeleteByEndpoint (table : List StoreRow) (ep : String) : List StoreRow :=
  table.filter (fun r => !(r.endpoint == ep))

/-- Go `Postgres.GetTopicsByEndpoint`: `SELECT topics ... WHERE endpoint =
$1`; `none` models `pgx.ErrNoRows` (found = false). -/
def GetTopicsByEndpoint (table : List StoreRow) (ep : String) :
    Option (List String) :=
  (table.find? (fun r => r.endpoint == ep)).map rowTopics

def rowSubscription (r : StoreRow) : Subscription :=
  { Endpoint := r.endpoint, P256DH := r.p256dh, Auth := r.auth,
    Topics := r.topics }

/-- Go `Postgres.GetSubscriptionByEndpoint`. -/
def GetSubscriptionByEndpoint (table : List StoreRow) (ep : String) :
    Option Subscription :=
  (table.find? (fun r => r.endpoint == ep)).map rowSubscription

/-- Go `Postgres.ListForTopic`: `SELECT ... WHERE $1 = ANY(topics)`. -/
def ListForTopic (table : List StoreRow) (topic : String) :
    List Subscription :=
  (table.filter (fun r => r.topics.contains topic)).map rowSubscription

/-! ## Credential validation (service package) -/

structure ServiceConfig where
  HubUICode : String
  HubSecret : String
  deriving DecidableEq, Repr

/-- Go `subtle.ConstantTimeCompare(x, y)`: 1 when the two byte slices
have equal length and contents, 0 otherwise.  The timing behaviour is
not modelled; functionally it is equality. -/
def constantTimeCompare (x y : String) : Nat :=
  if x = y then 1 else 0

/-- Go `service.secureCompare`: false when either side is empty or the
lengths differ; otherwise `subtle.ConstantTimeCompare == 1`. -/
def secureCompare (expected actual : String) : Bool :=
  if expected.length = 0 ∨ actual.length = 0 then false
  else if expected.length ≠ actual.length then false
  else constantTimeCompare expected actual == 1

/-- Go `Service.ValidateUICode`. -/
def ValidateUICode (cfg : ServiceConfig) (code : String) : Bool :=
  secureCompare cfg.HubUICode code

/-- Go `Service.ValidateHubSecret`. -/
def ValidateHubSecret (cfg : ServiceConfig) (secret : String) : Bool :=
  secureCompare cfg.HubSecret secret

/-! ## Rate limiter (backend-go/internal/ratelimit/limiter.go)

The `attempts` map from key to timestamp list is a total function with
default `[]` (a Go map lookup of a missing key yields nil). -/

structure Limiter where
  limit : Nat
  window : Int
  attempts : String → List Int

/-- Go `ratelimit.New`: a limit below 1 becomes 1, a non-positive window
becomes one minute (here: 60 time units). -/
def Limiter.New (limit : Int) (window : Int) : Limiter :=
  { limit := if limit < 1 then 1 else limit.toNat,
    window := if window ≤ 0 then 60 else window,
    attempts := fun _ => [] }

/-- Go `Limiter.Allow`: prune timestamps not after `now - window`; deny
(storing only the pruned list) when the remaining count reaches the
limit; otherwise append `now` and allow. -/
def Limiter.Allow (l : Limiter) (key : String) (now : Int) :
    Bool × Limiter :=
  let cutoff := now - l.window
  let pruned := (l.attempts key).filter (fun t => decide (cutoff < t))
  if l.limit ≤ pruned.length then
    (false, { l with attempts := Function.update l.attempts key pruned })
  else
    (true, { l with attempts := Function.update l.attempts key (pruned ++ [now]) })

/-- The pruned timestamp list of Go `Limiter.Allow`: the recorded
attempts for the key that are still within the window at `now`. -/
def prunedList (l : Limiter) (key : String) (now : Int) : List Int :=
  (l.attempts key).filter (fun t => decide (now - l.window < t))

/-- One `Allow` call: a key (the client IP) and the wall-clock time at
which the call is made. -/
structure Call where
  key : String
  time : Int
  deriving DecidableEq, Repr

/-- Run a chronological sequence of `Allow` calls, returning each call
paired with its result, together with the final limiter state. -/
def runCalls (l : Limiter) : List Call → List (Call × Bool) × Limiter
  | [] => ([], l)
  | c :: cs =>
    let step := Limiter.Allow l c.key c.time
    let rest := runCalls step.2 cs
    ((c, step.1) :: rest.1, rest.2)

/-! ## Push dispatcher (push package: sendWithRetry, backoffDuration)

The outcome of one `webpush.SendNotification` call is either a transport
error or an HTTP status code.  An environment `Nat → SendOutcome` gives
the outcome of each attempt.  The observable behaviour of
`sendWithRetry` is a trace of events: transmission attempts, sleeps
(with their duration in milliseconds), and store deletions (tagged with
the kind of Go context they are invoked with). -/

inductive SendOutcome where
  | transportError
  | status (code : Nat)
  deriving DecidableEq, Repr

/-- The Go context a store call receives: `context.Background()` or the
context of the originating HTTP request. -/
inductive CtxKind where
  | background
  | request
  deriving DecidableEq, Repr

inductive PushEvent where
  | attempt (n : Nat)
  | sleep (ms : Nat)
  | deleteByEndpoint (ctx : CtxKind) (endpoint : String)
  deriving DecidableEq, Repr

structure DispatcherConfig where
  MaxRetries : Nat
  RetryBaseBackoffMS : Nat
  VAPIDPublicKey : String
  VAPIDPrivateKey : String
  VAPIDSubject : String
  deriving DecidableEq, Repr

/-- Go `push.backoffDuration`: a base below 1 becomes 1, then
`base << attempt` milliseconds. -/
def backoffDuration (baseMS attempt : Nat) : Nat :=
  (if baseMS < 1 then 1 else baseMS) <<< attempt

/-- The retry loop body of Go `Dispatcher.sendWithRetry`, one iteration
per unit of fuel.  `a` is the current attempt index.  The Go loop runs
`for attempt := 0; attempt <= MaxRetries; attempt++` and every
`continue` is guarded by `attempt < MaxRetries`, so fuel
`MaxRetries + 1` from attempt 0 never runs out. -/
def sendLoop (cfg : DispatcherConfig) (ep : String)
    (outcomes : Nat → SendOutcome) : Nat → Nat → List PushEvent
  | _, 0 => []
  | a, fuel + 1 =>
    PushEvent.attempt a ::
    match outcomes a with
    | SendOutcome.transportError =>
      if a < cfg.MaxRetries then
        PushEvent.sleep (backoffDuration cfg.RetryBaseBackoffMS a) ::
          sendLoop cfg ep outcomes (a + 1) fuel
      else []
    | SendOutcome.status code =>
      if 200 ≤ code ∧ code ≤ 299 then []
      else if code = 410 then
        [PushEvent.deleteByEndpoint CtxKind.background ep]
      else if 500 ≤ code ∧ code ≤ 599 ∧ a < cfg.MaxRetries then
        PushEvent.sleep (backoffDuration cfg.RetryBaseBackoffMS a) ::
          sendLoop cfg ep outcomes (a + 1) fuel
      else []

/-- Go `Dispatcher.sendWithRetry`: drop the task when the VAPID
configuration is incomplete, otherwise run the retry loop starting at
attempt 0. -/
def sendWithRetry (cfg : DispatcherConfig) (sub : Subscription)
    (outcomes : Nat → SendOutcome) : List PushEvent :=
  if cfg.VAPIDPublicKey = "" ∨ cfg.VAPIDPrivateKey = "" ∨ cfg.VAPIDSubject = "" then
    []
  else
    sendLoop cfg sub.Endpoint outcomes 0 (cfg.MaxRetries + 1)

/-- Apply the store effects of a dispatcher trace to the table: each
`deleteByEndpoint` event performs the Postgres `DELETE`. -/
def applyPushEvents (table : List StoreRow) : List PushEvent → List StoreRow
  | [] => table
  | PushEvent.deleteByEndpoint _ ep :: rest =>
    applyPushEvents (DeleteByEndpoint table ep) rest
  | _ :: rest => applyPushEvents table rest

def countAttempts (trace : List PushEvent) : Nat :=
  trace.countP (fun e => match e with | PushEvent.attempt _ => true | _ => false)

/-- An attempt outcome after which the Go loop executes `continue`:
either a transport error, or a 5xx status, while attempts remain. -/
def continuesAfter (cfg : DispatcherConfig) (o : SendOutcome) (a : Nat) : Bool :=
  match o with
  | SendOutcome.transportError => decide (a < cfg.MaxRetries)
  | SendOutcome.status code =>
    decide (¬(200 ≤ code ∧ code ≤ 299) ∧ code ≠ 410 ∧
      500 ≤ code ∧ code ≤ 599 ∧ a < cfg.MaxRetries)

/-! ## Application service (service package) -/

/-- A dispatch task: a subscription snapshot and the payload bytes. -/
structure DispatchTask where
  subscription : Subscription
  payload : List Nat
  deriving DecidableEq, Repr

/-- The state the service acts on: the store table and the dispatcher
queue contents. -/
structure ServiceState where
  table : List StoreRow
  queue : List DispatchTask
  deriving DecidableEq, Repr

/-- Go `Dispatcher.EnqueueMany`: one task per subscription, all sharing
the same payload. -/
def EnqueueMany (queue : List DispatchTask) (subs : List Subscription)
    (payload : List Nat) : List DispatchTask :=
  queue ++ subs.map (fun s => { subscription := s, payload := payload })

/-- Go `Service.TriggerTopic`: list the subscriptions for the normalized
topic; unless `dryRun`, enqueue the payload to all of them; return the
target count either way. -/
def TriggerTopic (st : ServiceState) (topic : String) (payload : List Nat)
    (dryRun : Bool) : Nat × ServiceState :=
  let targets := ListForTopic st.table (NormalizeTopic topic)
  let queue' := if dryRun then st.queue else EnqueueMany st.queue targets payload
  (targets.length, { st with queue := queue' })

/-! ## HTTP handlers (httpapi package) -/

/-- Go `strings.TrimSpace`: drop leading and trailing whitespace.
Modelled structurally over the character list so that it computes by
kernel reduction. -/
def goTrimSpace (s : String) : String :=
  String.mk
    (((s.data.dropWhile Char.isWhitespace).reverse.dropWhile
        Char.isWhitespace).reverse)

/-- The nested `subscription` object of a subscribe request
(`pushSubscription` in Go): endpoint plus the `keys` pair. -/
structure PushSubscriptionBody where
  endpoint : String
  keysP256dh : String
  keysAuth : String
  deriving DecidableEq, Repr

/-- Go `subscribeRequest`: the optional nested object, the topic and
ui_code, and the flat fields (absent JSON fields decode to ""). -/
structure SubscribeRequest where
  subscription : Option PushSubscriptionBody
  topic : String
  uiCode : String
  endpoint : String
  p256dh : String
  auth : String
  keysP256dh : String
  keysAuth : String
  deriving DecidableEq, Repr

/-- Go `httpapi.firstNonEmpty`: the first value whose trim is non-empty,
returned trimmed; "" when none. -/
def firstNonEmpty : List String → String
  | [] => ""
  | v :: rest =>
    if goTrimSpace v ≠ "" then goTrimSpace v else firstNonEmpty rest

/-- The trimmed fields of the nested `subscription` object of a
subscribe request; each is "" when the object is absent (the zero value
of the local variables in Go `buildSubscription`). -/
def nestedFields (request : SubscribeRequest) : String × String × String :=
  match request.subscription with
  | some s => (goTrimSpace s.endpoint, goTrimSpace s.keysP256dh,
               goTrimSpace s.keysAuth)
  | none => ("", "", "")

/-- The `endpoint` local of Go `buildSubscription` after the flat-form
fallback. -/
def builtEndpoint (request : SubscribeRequest) : String :=
  if (nestedFields request).1 = "" then goTrimSpace request.endpoint
  else (nestedFields request).1

/-- The `p256dh` local of Go `buildSubscription` after the flat-form
fallback. -/
def builtP256dh (request : SubscribeRequest) : String :=
  if (nestedFields request).2.1 = "" then
    goTrimSpace (firstNonEmpty [request.p256dh, request.keysP256dh])
  else (nestedFields request).2.1

/-- The `auth` local of Go `buildSubscription` after the flat-form
fallback. -/
def builtAuth (request : SubscribeRequest) : String :=
  if (nestedFields request).2.2 = "" then
    goTrimSpace (firstNonEmpty [request.auth, request.keysAuth])
  else (nestedFields request).2.2

/-- Go `httpapi.buildSubscription`: take the trimmed fields of the
nested object when present, then fill each still-empty field from the
flat form; fail when any of endpoint, p256dh, auth remains empty. -/
def buildSubscription (request : SubscribeRequest) (topic : String) :
    Option Subscription :=
  if builtEndpoint request = "" ∨ builtP256dh request = "" ∨
      builtAuth request = "" then none
  else some { Endpoint := builtEndpoint request, P256DH := builtP256dh request,
              Auth := builtAuth request, Topics := [topic] }

/-- The response of `Handlers.subscribe` by its HTTP meaning. -/
inductive SubscribeStatus where
  | rateLimited
  | invalidBody
  | unauthorized
  | invalidSubscription
  | ok (created : Bool) (topics : List String)
  deriving DecidableEq, Repr

/-- Go `Handlers.subscribe` end to end: rate-limit check on the client
IP first, then JSON decoding (`none` models a body that fails to
decode), then the ui_code check, then topic normalization and
subscription building, then the store upsert.  The wall clock `now`
feeds both the limiter and the upsert. -/
def subscribeHandler (cfg : ServiceConfig) (l : Limiter) (ip : String)
    (body : Option SubscribeRequest) (table : List StoreRow) (now : Int) :
    SubscribeStatus × Limiter × List StoreRow :=
  let gate := Limiter.Allow l ip now
  if gate.1 = false then (SubscribeStatus.rateLimited, gate.2, table)
  else
    match body with
    | none => (SubscribeStatus.invalidBody, gate.2, table)
    | some payload =>
      if ValidateUICode cfg payload.uiCode = false then
        (SubscribeStatus.unauthorized, gate.2, table)
      else
        let topic := NormalizeTopic payload.topic
        match buildSubscription payload topic with
        | none => (SubscribeStatus.invalidSubscription, gate.2, table)
        | some sub =>
          let upsert := UpsertSubscription table sub now
          (SubscribeStatus.ok upsert.1 sub.Topics, gate.2, upsert.2)

/-- Go `Handlers.subscriptionMe`: trim the `endpoint` query parameter;
when empty, answer 200 inactive with no store access; otherwise query
the store.  The boolean records whether the store was queried. -/
def subscriptionMe (table : List StoreRow) (endpointQuery : String) :
    (Nat × String × List String) × Bool :=
  let endpoint := goTrimSpace endpointQuery
  if endpoint = "" then ((200, "inactive", []), false)
  else
    match GetTopicsByEndpoint table endpoint with
    | some topics => ((200, "active", topics), true)
    | none => ((200, "inactive", []), true)

/-! ## Helper lemmas -/

theorem string_length_eq_zero_iff (s : String) : s.length = 0 ↔ s = "" := by
  constructor
  · intro h
    cases s with
    | mk data =>
      have hd : data = [] := List.length_eq_zero.mp h
      rw [hd]
  · intro h
    rw [h]
    rfl

theorem secureCompare_eq_true (e a : String) :
    secureCompare e a = true ↔ e ≠ "" ∧ a = e := by
  unfold secureCompare constantTimeCompare
  by_cases he : e.length = 0
  · have he' : e = "" := (string_length_eq_zero_iff e).mp he
    simp [he, he']
  · have he' : e ≠ "" := fun h => he ((string_length_eq_zero_iff e).mpr h)
    by_cases ha : a.length = 0
    · have ha' : a = "" := (string_length_eq_zero_iff a).mp ha
      subst ha'
      simp [he, he']
      intro h
      exact he' h.symm
    · by_cases hea : e = a
      · subst hea
        simp [he, ha, he']
      · have hae : a ≠ e := fun h => hea h.symm
        by_cases hl : e.length = a.length
        · simp [he, ha, hl, hea, hae]
        · simp [he, ha, hl, hea, hae]

theorem buildSubscription_topics (req : SubscribeRequest) (t : String)
    (s : Subscription) (h : buildSubscription req t = some s) :
    s.Topics = [t] := by
  simp only [buildSubscription] at h
  repeat' split at h
  all_goals
    first
      | exact Option.noConfusion h
      | (injection h with h1; rw [← h1])

theorem upsert_exists_row (table : List StoreRow) (s : Subscription) (now : Int) :
    ∃ r ∈ (UpsertSubscription table s now).2,
      r.endpoint = s.Endpoint ∧ r.p256dh = s.P256DH ∧ r.auth = s.Auth ∧
      r.topics = s.Topics ∧ r.updated_at = now := by
  simp only [UpsertSubscription]
  by_cases h : table.any (fun r => r.endpoint == s.Endpoint) = true
  · obtain ⟨r, hr, hre⟩ := List.any_eq_true.mp h
    have hre' : r.endpoint = s.Endpoint := by simpa using hre
    simp only [h, if_true]
    refine ⟨{ r with p256dh := s.P256DH, auth := s.Auth, topics := s.Topics,
                     updated_at := now }, ?_, ?_⟩
    · exact List.mem_map.mpr ⟨r, hr, by simp [hre']⟩
    · simp [hre']
  · simp only [Bool.not_eq_true] at h
    simp only [h, Bool.false_eq_true, if_false]
    exact ⟨_, List.mem_append_right _ (List.mem_singleton_self _), by simp⟩

theorem allow_true_mem_attempts (l : Limiter) (key : String) (now : Int)
    (h : (Limiter.Allow l key now).1 = true) :
    now ∈ (Limiter.Allow l key now).2.attempts key := by
  by_cases hc : l.limit ≤ ((l.attempts key).filter
      (fun t => decide (now - l.window < t))).length
  · simp [Limiter.Allow, hc] at h
  · simp [Limiter.Allow, hc, Function.update]

theorem countAttempts_nil : countAttempts [] = 0 := rfl

theorem countAttempts_cons_attempt (n : Nat) (t : List PushEvent) :
    countAttempts (PushEvent.attempt n :: t) = countAttempts t + 1 := by
  simp [countAttempts, List.countP_cons]

theorem countAttempts_cons_sleep (d : Nat) (t : List PushEvent) :
    countAttempts (PushEvent.sleep d :: t) = countAttempts t := by
  simp [countAttempts, List.countP_cons]

theorem countAttempts_cons_delete (c : CtxKind) (e : String)
    (t : List PushEvent) :
    countAttempts (PushEvent.deleteByEndpoint c e :: t) = countAttempts t := by
  simp [countAttempts, List.countP_cons]

theorem countAttempts_append (t1 t2 : List PushEvent) :
    countAttempts (t1 ++ t2) = countAttempts t1 + countAttempts t2 := by
  simp [countAttempts, List.countP_append]

theorem sendLoop_count_le (cfg : DispatcherConfig) (ep : String)
    (o : Nat → SendOutcome) : ∀ (fuel a : Nat),
    countAttempts (sendLoop cfg ep o a fuel) ≤ fuel := by
  intro fuel
  induction fuel with
  | zero =>
    intro a
    simp [sendLoop, countAttempts_nil]
  | succ n ih =>
    intro a
    rw [sendLoop]
    cases houtcome : o a with
    | transportError =>
      dsimp only
      by_cases hlt : a < cfg.MaxRetries
      · rw [if_pos hlt]
        rw [countAttempts_cons_attempt, countAttempts_cons_sleep]
        exact Nat.succ_le_succ (ih (a + 1))
      · rw [if_neg hlt]
        rw [countAttempts_cons_attempt, countAttempts_nil]
        exact Nat.succ_le_succ (Nat.zero_le n)
    | status code =>
      dsimp only
      by_cases h2 : 200 ≤ code ∧ code ≤ 299
      · rw [if_pos h2]
        rw [countAttempts_cons_attempt, countAttempts_nil]
        exact Nat.succ_le_succ (Nat.zero_le n)
      · rw [if_neg h2]
        by_cases h410 : code = 410
        · rw [if_pos h410]
          rw [countAttempts_cons_attempt, countAttempts_cons_delete,
            countAttempts_nil]
          exact Nat.succ_le_succ (Nat.zero_le n)
        · rw [if_neg h410]
          by_cases h5 : 500 ≤ code ∧ code ≤ 599 ∧ a < cfg.MaxRetries
          · rw [if_pos h5]
            rw [countAttempts_cons_attempt, countAttempts_cons_sleep]
            exact Nat.succ_le_succ (ih (a + 1))
          · rw [if_neg h5]
            rw [countAttempts_cons_attempt, countAttempts_nil]
            exact Nat.succ_le_succ (Nat.zero_le n)

theorem sendLoop_succ_continue (cfg : DispatcherConfig) (ep : String)
    (o : Nat → SendOutcome) (a n : Nat)
    (h : continuesAfter cfg (o a) a = true) :
    sendLoop cfg ep o a (n + 1) =
      PushEvent.attempt a ::
        PushEvent.sleep (backoffDuration cfg.RetryBaseBackoffMS a) ::
        sendLoop cfg ep o (a + 1) n := by
  rw [sendLoop]
  cases houtcome : o a with
  | transportError =>
    rw [houtcome] at h
    simp only [continuesAfter] at h
    rw [decide_eq_true_iff] at h
    dsimp only
    rw [if_pos h]
  | status code =>
    rw [houtcome] at h
    simp only [continuesAfter] at h
    rw [decide_eq_true_iff] at h
    dsimp only
    rw [if_neg h.1, if_neg h.2.1, if_pos h.2.2]

theorem sendLoop_succ_410 (cfg : DispatcherConfig) (ep : String)
    (o : Nat → SendOutcome) (a n : Nat)
    (h : o a = SendOutcome.status 410) :
    sendLoop cfg ep o a (n + 1) =
      [PushEvent.attempt a,
       PushEvent.deleteByEndpoint CtxKind.background ep] := by
  rw [sendLoop, h]
  dsimp only
  rw [if_neg (by decide : ¬(200 ≤ 410 ∧ 410 ≤ 299)), if_pos rfl]

theorem sendLoop_succ_stop (cfg : DispatcherConfig) (ep : String)
    (o : Nat → SendOutcome) (a n : Nat)
    (hc : continuesAfter cfg (o a) a = false)
    (h410 : o a ≠ SendOutcome.status 410) :
    sendLoop cfg ep o a (n + 1) = [PushEvent.attempt a] := by
  rw [sendLoop]
  cases houtcome : o a with
  | transportError =>
    rw [houtcome] at hc
    simp only [continuesAfter] at hc
    rw [decide_eq_false_iff_not] at hc
    dsimp only
    rw [if_neg hc]
  | status code =>
    rw [houtcome] at hc h410
    have hcode : code ≠ 410 := fun h => h410 (by rw [h])
    simp only [continuesAfter] at hc
    rw [decide_eq_false_iff_not] at hc
    dsimp only
    by_cases h2 : 200 ≤ code ∧ code ≤ 299
    · rw [if_pos h2]
    · rw [if_neg h2, if_neg hcode,
        if_neg (fun hx => hc ⟨h2, hcode, hx⟩)]

theorem sendLoop_attempt_ge (cfg : DispatcherConfig) (ep : String)
    (o : Nat → SendOutcome) : ∀ (fuel a k : Nat),
    PushEvent.attempt k ∈ sendLoop cfg ep o a fuel → a ≤ k := by
  intro fuel
  induction fuel with
  | zero =>
    intro a k h
    simp [sendLoop] at h
  | succ n ih =>
    intro a k h
    by_cases hc : continuesAfter cfg (o a) a = true
    · rw [sendLoop_succ_continue cfg ep o a n hc] at h
      rcases List.mem_cons.mp h with h1 | h'
      · injection h1 with h1
        omega
      · rcases List.mem_cons.mp h' with h2 | h''
        · exact absurd h2 (by simp)
        · have := ih (a + 1) k h''
          omega
    · have hc' : continuesAfter cfg (o a) a = false :=
        Bool.eq_false_iff.mpr hc
      by_cases h4 : o a = SendOutcome.status 410
      · rw [sendLoop_succ_410 cfg ep o a n h4] at h
        rcases List.mem_cons.mp h with h1 | h'
        · injection h1 with h1
          omega
        · simp at h'
      · rw [sendLoop_succ_stop cfg ep o a n hc' h4] at h
        rcases List.mem_cons.mp h with h1 | h'
        · injection h1 with h1
          omega
        · simp at h'

theorem sendLoop_attempt_succ_continues (cfg : DispatcherConfig)
    (ep : String) (o : Nat → SendOutcome) : ∀ (fuel a k : Nat), a ≤ k →
    PushEvent.attempt (k + 1) ∈ sendLoop cfg ep o a fuel →
    continuesAfter cfg (o k) k = true := by
  intro fuel
  induction fuel with
  | zero =>
    intro a k hak h
    simp [sendLoop] at h
  | succ n ih =>
    intro a k hak h
    by_cases hc : continuesAfter cfg (o a) a = true
    · rcases Nat.eq_or_lt_of_le hak with heq | hlt
      · rw [← heq]
        exact hc
      · rw [sendLoop_succ_continue cfg ep o a n hc] at h
        rcases List.mem_cons.mp h with h1 | h'
        · injection h1 with h1
          omega
        · rcases List.mem_cons.mp h' with h2 | h''
          · exact absurd h2 (by simp)
          · exact ih (a + 1) k hlt h''
    · have hc' : continuesAfter cfg (o a) a = false :=
        Bool.eq_false_iff.mpr hc
      by_cases h4 : o a = SendOutcome.status 410
      · rw [sendLoop_succ_410 cfg ep o a n h4] at h
        rcases List.mem_cons.mp h with h1 | h'
        · injection h1 with h1
          omega
        · simp at h'
      · rw [sendLoop_succ_stop cfg ep o a n hc' h4] at h
        rcases List.mem_cons.mp h with h1 | h'
        · injection h1 with h1
          omega
        · simp at h'

theorem sendLoop_sleep_mem (cfg : DispatcherConfig) (ep : String)
    (o : Nat → SendOutcome) : ∀ (fuel a d : Nat),
    PushEvent.sleep d ∈ sendLoop cfg ep o a fuel →
    ∃ k, PushEvent.attempt k ∈ sendLoop cfg ep o a fuel ∧
      continuesAfter cfg (o k) k = true ∧
      d = backoffDuration cfg.RetryBaseBackoffMS k := by
  intro fuel
  induction fuel with
  | zero =>
    intro a d h
    simp [sendLoop] at h
  | succ n ih =>
    intro a d h
    by_cases hc : continuesAfter cfg (o a) a = true
    · rw [sendLoop_succ_continue cfg ep o a n hc] at h
      rcases List.mem_cons.mp h with h1 | h'
      · exact absurd h1 (by simp)
      · rcases List.mem_cons.mp h' with h2 | h''
        · injection h2 with h2
          refine ⟨a, ?_, hc, h2⟩
          rw [sendLoop_succ_continue cfg ep o a n hc]
          exact List.mem_cons_self _ _
        · obtain ⟨k, hkmem, hkc, hkd⟩ := ih (a + 1) d h''
          refine ⟨k, ?_, hkc, hkd⟩
          rw [sendLoop_succ_continue cfg ep o a n hc]
          exact List.mem_cons_of_mem _ (List.mem_cons_of_mem _ hkmem)
    · have hc' : continuesAfter cfg (o a) a = false :=
        Bool.eq_false_iff.mpr hc
      by_cases h4 : o a = SendOutcome.status 410
      · rw [sendLoop_succ_410 cfg ep o a n h4] at h
        simp at h
      · rw [sendLoop_succ_stop cfg ep o a n hc' h4] at h
        simp at h

theorem sendLoop_canonical_410 (cfg : DispatcherConfig) (ep : String)
    (o : Nat → SendOutcome) : ∀ (n a : Nat),
    a + n ≤ cfg.MaxRetries →
    (∀ i, a ≤ i → i < a + n → continuesAfter cfg (o i) i = true) →
    o (a + n) = SendOutcome.status 410 →
    sendLoop cfg ep o a (cfg.MaxRetries + 1 - a) =
      (List.range' a n).flatMap (fun i =>
        [PushEvent.attempt i,
         PushEvent.sleep (backoffDuration cfg.RetryBaseBackoffMS i)]) ++
      [PushEvent.attempt (a + n),
       PushEvent.deleteByEndpoint CtxKind.background ep] := by
  intro n
  induction n with
  | zero =>
    intro a ha hcont h410
    have hfuel : cfg.MaxRetries + 1 - a = (cfg.MaxRetries - a) + 1 := by omega
    rw [hfuel, sendLoop_succ_410 cfg ep o a _ (by simpa using h410)]
    simp
  | succ n ih =>
    intro a ha hcont h410
    have hfuel : cfg.MaxRetries + 1 - a = (cfg.MaxRetries - a) + 1 := by omega
    have hca : continuesAfter cfg (o a) a = true :=
      hcont a (Nat.le_refl a) (by omega)
    rw [hfuel, sendLoop_succ_continue cfg ep o a _ hca]
    have hrec : cfg.MaxRetries - a = cfg.MaxRetries + 1 - (a + 1) := by omega
    have hsum : a + 1 + n = a + (n + 1) := by omega
    rw [hrec, ih (a + 1) (by omega)
      (fun i h1 h2 => hcont i (by omega) (by omega))
      (by rw [hsum]; exact h410)]
    rw [List.range'_succ, List.flatMap_cons, hsum]
    simp [List.append_assoc]

theorem countAttempts_chunks (b : Nat → Nat) : ∀ (n a : Nat),
    countAttempts ((List.range' a n).flatMap (fun i =>
      [PushEvent.attempt i, PushEvent.sleep (b i)])) = n := by
  intro n
  induction n with
  | zero =>
    intro a
    simp [countAttempts_nil]
  | succ n ih =>
    intro a
    rw [List.range'_succ, List.flatMap_cons, countAttempts_append,
      countAttempts_cons_attempt, countAttempts_cons_sleep,
      countAttempts_nil, ih (a + 1)]
    omega

theorem applyPushEvents_append (t1 t2 : List PushEvent) :
    ∀ table, applyPushEvents table (t1 ++ t2) =
      applyPushEvents (applyPushEvents table t1) t2 := by
  induction t1 with
  | nil => intro table; rfl
  | cons e rest ih =>
    intro table
    cases e with
    | attempt n => simpa [applyPushEvents] using ih table
    | sleep d => simpa [applyPushEvents] using ih table
    | deleteByEndpoint c ep =>
      simpa [applyPushEvents] using ih (DeleteByEndpoint table ep)

theorem applyPushEvents_chunks (b : Nat → Nat) : ∀ (n a : Nat)
    (table : List StoreRow),
    applyPushEvents table ((List.range' a n).flatMap (fun i =>
      [PushEvent.attempt i, PushEvent.sleep (b i)])) = table := by
  intro n
  induction n with
  | zero =>
    intro a table
    rfl
  | succ n ih =>
    intro a table
    rw [List.range'_succ, List.flatMap_cons, applyPushEvents_append]
    exact ih (a + 1) table

theorem find?_deleteByEndpoint (table : List StoreRow) (ep : String) :
    (DeleteByEndpoint table ep).find? (fun r => r.endpoint == ep) = none := by
  apply List.find?_eq_none.mpr
  intro x hx
  have hm := List.mem_filter.mp hx
  simpa using hm.2

theorem runCalls_cons (l : Limiter) (c : Call) (cs : List Call) :
    runCalls l (c :: cs) =
      ((c, (Limiter.Allow l c.key c.time).1) ::
          (runCalls (Limiter.Allow l c.key c.time).2 cs).1,
       (runCalls (Limiter.Allow l c.key c.time).2 cs).2) := rfl

theorem allow_denied_eq (l : Limiter) (key : String) (now : Int)
    (h : l.limit ≤ (prunedList l key now).length) :
    Limiter.Allow l key now =
      (false,
       { l with
          attempts := Function.update l.attempts key (prunedList l key now) }) := by
  unfold Limiter.Allow prunedList at *
  rw [if_pos h]

theorem allow_granted_eq (l : Limiter) (key : String) (now : Int)
    (h : ¬ l.limit ≤ (prunedList l key now).length) :
    Limiter.Allow l key now =
      (true,
       { l with
          attempts := Function.update l.attempts key
            (prunedList l key now ++ [now]) }) := by
  unfold Limiter.Allow prunedList at *
  rw [if_neg h]

theorem allow_false_records_nothing (l : Limiter) (key : String) (now : Int)
    (h : (Limiter.Allow l key now).1 = false) (k' : String) (t : Int)
    (ht : t ∈ (Limiter.Allow l key now).2.attempts k') :
    t ∈ l.attempts k' := by
  by_cases hc : l.limit ≤ (prunedList l key now).length
  · rw [allow_denied_eq l key now hc] at ht
    dsimp only at ht
    by_cases hk : k' = key
    · subst hk
      rw [Function.update_same] at ht
      exact List.mem_of_mem_filter ht
    · rw [Function.update_noteq hk] at ht
      exact ht
  · rw [allow_granted_eq l key now hc] at h
    exact absurd h (by simp)

theorem countP_prune_eq (L : List Int) (a cutoff : Int) (h : cutoff ≤ a) :
    (L.filter (fun t => decide (cutoff < t))).countP
      (fun t => decide (a < t)) = L.countP (fun t => decide (a < t)) := by
  rw [List.countP_filter]
  apply List.countP_congr
  intro t _
  simp only [Bool.and_eq_true, decide_eq_true_eq]
  constructor
  · intro hpq
    exact hpq.1
  · intro hp
    exact ⟨hp, by omega⟩

theorem limiter_run_bound (k : String) (a W : Int) (N : Nat) :
    ∀ (cs : List Call) (l : Limiter) (g : Nat),
      l.limit = N → l.window = W →
      List.Pairwise (· ≤ ·) (cs.map Call.time) →
      g ≤ N →
      (g ≤ (l.attempts k).countP (fun t => decide (a < t)) ∨
        ∀ c ∈ cs, a + W < c.time) →
      g + (runCalls l cs).1.countP (fun p =>
        (p.1.key == k) && p.2 && decide (a < p.1.time) &&
          decide (p.1.time ≤ a + W)) ≤ N := by
  intro cs
  induction cs with
  | nil =>
    intro l g hlim hwin hpair hg hinv
    simpa [runCalls] using hg
  | cons c rest ih =>
    intro l g hlim hwin hpair hg hinv
    have hpc := List.pairwise_cons.mp hpair
    have hrest_time : ∀ c' ∈ rest, c.time ≤ c'.time := by
      intro c' hc'
      exact hpc.1 c'.time (List.mem_map_of_mem Call.time hc')
    rw [runCalls_cons, List.countP_cons]
    dsimp only
    by_cases hkey : c.key = k
    · rw [hkey]
      by_cases hdeny : l.limit ≤ (prunedList l k c.time).length
      · -- the call on key k is denied: no timestamp is recorded
        rw [allow_denied_eq l k c.time hdeny]
        dsimp only
        rw [if_neg (by simp)]
        have hinv' : g ≤ ((Function.update l.attempts k
            (prunedList l k c.time)) k).countP
              (fun t => decide (a < t)) ∨
            ∀ c' ∈ rest, a + W < c'.time := by
          by_cases hcw : c.time ≤ a + W
          · rcases hinv with hleft | hright
            · left
              rw [Function.update_same]
              simp only [prunedList, hwin]
              rw [countP_prune_eq _ _ _ (by omega)]
              exact hleft
            · exact absurd (hright c (List.mem_cons_self c rest)) (by omega)
          · right
            intro c' hc'
            have := hrest_time c' hc'
            omega
        have := ih
          ⟨l.limit, l.window,
           Function.update l.attempts k (prunedList l k c.time)⟩
          g hlim hwin hpc.2 hg hinv'
        omega
      · -- the call on key k is granted
        rw [allow_granted_eq l k c.time hdeny]
        dsimp only
        by_cases hcw : c.time ≤ a + W
        · have hleft : g ≤ (l.attempts k).countP
              (fun t => decide (a < t)) := by
            rcases hinv with hleft | hright
            · exact hleft
            · exact absurd (hright c (List.mem_cons_self c rest)) (by omega)
          have hcnt : (prunedList l k c.time).countP
              (fun t => decide (a < t)) =
              (l.attempts k).countP (fun t => decide (a < t)) := by
            simp only [prunedList, hwin]
            exact countP_prune_eq _ _ _ (by omega)
          by_cases hat : a < c.time
          · -- accepted call inside the window (a, a + W]
            rw [if_pos (by simp [hat, hcw])]
            have hgN : g + 1 ≤ N := by
              have h1 : g ≤ (prunedList l k c.time).length := by
                rw [← hcnt] at hleft
                exact le_trans hleft (List.countP_le_length _)
              omega
            have hinv' : g + 1 ≤ ((Function.update l.attempts k
                (prunedList l k c.time ++ [c.time])) k).countP
                  (fun t => decide (a < t)) ∨
                ∀ c' ∈ rest, a + W < c'.time := by
              left
              rw [Function.update_same, List.countP_append]
              have hone : List.countP (fun t => decide (a < t)) [c.time]
                  = 1 := by
                simp [List.countP_cons, hat]
              rw [hone, hcnt]
              omega
            have := ih
              ⟨l.limit, l.window,
               Function.update l.attempts k
                 (prunedList l k c.time ++ [c.time])⟩
              (g + 1) hlim hwin hpc.2 hgN hinv'
            omega
          · -- accepted call at or before a: not in the window
            rw [if_neg (by simp [hat])]
            have hinv' : g ≤ ((Function.update l.attempts k
                (prunedList l k c.time ++ [c.time])) k).countP
                  (fun t => decide (a < t)) ∨
                ∀ c' ∈ rest, a + W < c'.time := by
              left
              rw [Function.update_same, List.countP_append]
              rw [hcnt]
              omega
            have := ih
              ⟨l.limit, l.window,
               Function.update l.attempts k
                 (prunedList l k c.time ++ [c.time])⟩
              g hlim hwin hpc.2 hg hinv'
            omega
        · -- accepted call after the window end
          rw [if_neg (by simp [hcw])]
          have hinv' : g ≤ ((Function.update l.attempts k
              (prunedList l k c.time ++ [c.time])) k).countP
                (fun t => decide (a < t)) ∨
              ∀ c' ∈ rest, a + W < c'.time := by
            right
            intro c' hc'
            have := hrest_time c' hc'
            omega
          have := ih
            ⟨l.limit, l.window,
             Function.update l.attempts k
               (prunedList l k c.time ++ [c.time])⟩
            g hlim hwin hpc.2 hg hinv'
          omega
    · -- the call is on a different key: nothing about k changes
      rw [if_neg (by simp [hkey])]
      have hother : (Limiter.Allow l c.key c.time).2.attempts k =
          l.attempts k := by
        have hk : k ≠ c.key := fun h => hkey h.symm
        by_cases hd : l.limit ≤ (prunedList l c.key c.time).length
        · rw [allow_denied_eq l c.key c.time hd]
          dsimp only
          rw [Function.update_noteq hk]
        · rw [allow_granted_eq l c.key c.time hd]
          dsimp only
          rw [Function.update_noteq hk]
      have hlim' : (Limiter.Allow l c.key c.time).2.limit = N := by
        by_cases hd : l.limit ≤ (prunedList l c.key c.time).length
        · rw [allow_denied_eq l c.key c.time hd]
          exact hlim
        · rw [allow_granted_eq l c.key c.time hd]
          exact hlim
      have hwin' : (Limiter.Allow l c.key c.time).2.window = W := by
        by_cases hd : l.limit ≤ (prunedList l c.key c.time).length
        · rw [allow_denied_eq l c.key c.time hd]
          exact hwin
        · rw [allow_granted_eq l c.key c.time hd]
          exact hwin
      have hinv' : g ≤ ((Limiter.Allow l c.key c.time).2.attempts k).countP
            (fun t => decide (a < t)) ∨
          ∀ c' ∈ rest, a + W < c'.time := by
        rcases hinv with hleft | hright
        · left
          rw [hother]
          exact hleft
        · right
          intro c' hc'
          exact hright c' (List.mem_cons_of_mem c hc')
      have := ih ((Limiter.Allow l c.key c.time).2) g hlim' hwin'
        hpc.2 hg hinv'
      omega

/-! ## Claim theorems -/

/-- Claim C1: with complete VAPID configuration, when attempt k of a
task returns HTTP 410 (after k retryable attempts), the dispatcher trace
is exactly k retried attempts with their backoff sleeps, then attempt k
followed by a store delete-by-endpoint on the task subscription endpoint
invoked with a background context; the task makes exactly k + 1 attempts
(none after the 410), and applying the trace store effects removes the
subscription row, so lookups by that endpoint find nothing. -/
theorem C1_410_prunes_subscription (cfg : DispatcherConfig)
    (sub : Subscription) (o : Nat → SendOutcome) (table : List StoreRow)
    (k : Nat)
    (hv : cfg.VAPIDPublicKey ≠ "" ∧ cfg.VAPIDPrivateKey ≠ "" ∧
      cfg.VAPIDSubject ≠ "")
    (hk : k ≤ cfg.MaxRetries)
    (hcont : ∀ i, i < k → continuesAfter cfg (o i) i = true)
    (h410 : o k = SendOutcome.status 410) :
    sendWithRetry cfg sub o =
      (List.range' 0 k).flatMap (fun i =>
        [PushEvent.attempt i,
         PushEvent.sleep (backoffDuration cfg.RetryBaseBackoffMS i)]) ++
      [PushEvent.attempt k,
       PushEvent.deleteByEndpoint CtxKind.background sub.Endpoint] ∧
    countAttempts (sendWithRetry cfg sub o) = k + 1 ∧
    GetSubscriptionByEndpoint
      (applyPushEvents table (sendWithRetry cfg sub o)) sub.Endpoint = none ∧
    GetTopicsByEndpoint
      (applyPushEvents table (sendWithRetry cfg sub o)) sub.Endpoint =
      none := by
  have hnotv : ¬(cfg.VAPIDPublicKey = "" ∨ cfg.VAPIDPrivateKey = "" ∨
      cfg.VAPIDSubject = "") := by
    push_neg
    exact hv
  have htrace : sendWithRetry cfg sub o =
      (List.range' 0 k).flatMap (fun i =>
        [PushEvent.attempt i,
         PushEvent.sleep (backoffDuration cfg.RetryBaseBackoffMS i)]) ++
      [PushEvent.attempt k,
       PushEvent.deleteByEndpoint CtxKind.background sub.Endpoint] := by
    unfold sendWithRetry
    rw [if_neg hnotv]
    have := sendLoop_canonical_410 cfg sub.Endpoint o k 0 (by omega)
      (fun i h1 h2 => hcont i (by omega)) (by simpa using h410)
    simpa using this
  refine ⟨htrace, ?_, ?_, ?_⟩
  · rw [htrace, countAttempts_append, countAttempts_chunks,
      countAttempts_cons_attempt, countAttempts_cons_delete,
      countAttempts_nil]
  · rw [htrace, applyPushEvents_append, applyPushEvents_chunks]
    show GetSubscriptionByEndpoint
      (DeleteByEndpoint table sub.Endpoint) sub.Endpoint = none
    unfold GetSubscriptionByEndpoint
    rw [find?_deleteByEndpoint]
    rfl
  · rw [htrace, applyPushEvents_append, applyPushEvents_chunks]
    show GetTopicsByEndpoint
      (DeleteByEndpoint table sub.Endpoint) sub.Endpoint = none
    unfold GetTopicsByEndpoint
    rw [find?_deleteByEndpoint]
    rfl

/-- Witness for C1: a 503 then a 410; after the task the row for the
endpoint is gone. -/
theorem C1_410_prunes_subscription_witness :
    GetSubscriptionByEndpoint
      (applyPushEvents [⟨"https://push.example/abc", "k", "a", ["default"],
          1, 1⟩]
        (sendWithRetry ⟨3, 400, "P", "K", "S"⟩
          ⟨"https://push.example/abc", "k", "a", ["default"]⟩
          (fun n => if n = 0 then SendOutcome.status 503
                    else SendOutcome.status 410)))
      "https://push.example/abc" = none :=
  (C1_410_prunes_subscription ⟨3, 400, "P", "K", "S"⟩
    ⟨"https://push.example/abc", "k", "a", ["default"]⟩
    (fun n => if n = 0 then SendOutcome.status 503
              else SendOutcome.status 410)
    [⟨"https://push.example/abc", "k", "a", ["default"], 1, 1⟩] 1
    (by decide) (by decide) (by decide) (by decide)).2.2.1

/-- Claim C5, counterexample: with RetryBaseBackoffMS = 0 the code
clamps the base to 1, so after the first failed attempt it sleeps 1 ms,
not base · 2^0 = 0 ms as the claimed backoff formula states. -/
theorem C5_counterexample_backoff_base_zero :
    sendWithRetry ⟨3, 0, "P", "K", "S"⟩ ⟨"https://e", "k", "a", ["default"]⟩
        (fun _ => SendOutcome.transportError) =
      [PushEvent.attempt 0, PushEvent.sleep 1, PushEvent.attempt 1,
       PushEvent.sleep 2, PushEvent.attempt 2, PushEvent.sleep 4,
       PushEvent.attempt 3] ∧
    PushEvent.sleep (0 * 2 ^ 0) ∉
      sendWithRetry ⟨3, 0, "P", "K", "S"⟩ ⟨"https://e", "k", "a", ["default"]⟩
        (fun _ => SendOutcome.transportError) := by
  refine ⟨by decide, by decide⟩

/-- Claim C5, amended: with complete VAPID configuration the dispatcher
performs at most MaxRetries + 1 attempts; attempt k + 1 happens only
when attempt k ended in a transport error or a 5xx status with attempts
remaining; every sleep in the trace is the backoff of some retried
attempt k, namely max(base, 1) · 2^k milliseconds; and a non-2xx status
other than 410 and 5xx at attempt k means no attempt k + 1 occurs. -/
theorem C5_retry_policy (cfg : DispatcherConfig) (sub : Subscription)
    (o : Nat → SendOutcome)
    (hv : cfg.VAPIDPublicKey ≠ "" ∧ cfg.VAPIDPrivateKey ≠ "" ∧
      cfg.VAPIDSubject ≠ "") :
    countAttempts (sendWithRetry cfg sub o) ≤ cfg.MaxRetries + 1 ∧
    (∀ k, PushEvent.attempt (k + 1) ∈ sendWithRetry cfg sub o →
      continuesAfter cfg (o k) k = true) ∧
    (∀ d, PushEvent.sleep d ∈ sendWithRetry cfg sub o →
      ∃ k, PushEvent.attempt k ∈ sendWithRetry cfg sub o ∧
        continuesAfter cfg (o k) k = true ∧
        d = backoffDuration cfg.RetryBaseBackoffMS k) ∧
    (∀ k, backoffDuration cfg.RetryBaseBackoffMS k =
      max cfg.RetryBaseBackoffMS 1 * 2 ^ k) ∧
    (∀ k c, o k = SendOutcome.status c → ¬(200 ≤ c ∧ c ≤ 299) → c ≠ 410 →
      ¬(500 ≤ c ∧ c ≤ 599) →
      PushEvent.attempt (k + 1) ∉ sendWithRetry cfg sub o) := by
  have hnotv : ¬(cfg.VAPIDPublicKey = "" ∨ cfg.VAPIDPrivateKey = "" ∨
      cfg.VAPIDSubject = "") := by
    push_neg
    exact hv
  have hw : sendWithRetry cfg sub o =
      sendLoop cfg sub.Endpoint o 0 (cfg.MaxRetries + 1) := by
    unfold sendWithRetry
    rw [if_neg hnotv]
  have hsucc : ∀ k, PushEvent.attempt (k + 1) ∈ sendWithRetry cfg sub o →
      continuesAfter cfg (o k) k = true := by
    intro k hk
    rw [hw] at hk
    exact sendLoop_attempt_succ_continues cfg sub.Endpoint o _ 0 k
      (Nat.zero_le k) hk
  refine ⟨?_, hsucc, ?_, ?_, ?_⟩
  · rw [hw]
    exact sendLoop_count_le cfg sub.Endpoint o (cfg.MaxRetries + 1) 0
  · intro d hd
    rw [hw] at hd
    obtain ⟨k, h1, h2, h3⟩ := sendLoop_sleep_mem cfg sub.Endpoint o _ 0 d hd
    refine ⟨k, ?_, h2, h3⟩
    rw [hw]
    exact h1
  · intro k
    unfold backoffDuration
    rw [Nat.shiftLeft_eq]
    have hbase : (if cfg.RetryBaseBackoffMS < 1 then 1
        else cfg.RetryBaseBackoffMS) = max cfg.RetryBaseBackoffMS 1 := by
      rw [Nat.max_def]
      split <;> split <;> omega
    rw [hbase]
  · intro k c hkc h2 h4 h5 hmem
    have hct := hsucc k hmem
    rw [hkc] at hct
    simp only [continuesAfter] at hct
    rw [decide_eq_true_iff] at hct
    exact h5 ⟨hct.2.2.1, hct.2.2.2.1⟩

/-- Witness for C5 at a concrete configuration: at most four attempts
are made. -/
theorem C5_retry_policy_witness :
    countAttempts (sendWithRetry ⟨3, 400, "P", "K", "S"⟩
      ⟨"https://e", "k", "a", ["default"]⟩
      (fun _ => SendOutcome.status 201)) ≤ 3 + 1 :=
  (C5_retry_policy ⟨3, 400, "P", "K", "S"⟩
    ⟨"https://e", "k", "a", ["default"]⟩
    (fun _ => SendOutcome.status 201) (by decide)).1

/-- Claim C2: over any chronological sequence of Allow calls starting
from a fresh limiter, for every key k and every half-open interval
(a, a + W] of length the configured window, the number of calls on k
that return true with call time in that interval never exceeds the
configured limit; moreover a call that returns false records no
timestamp: every timestamp in the post-call state was already present
before the call. -/
theorem C2_limiter_window_bound (n w : Int) (cs : List Call) (k : String)
    (a : Int)
    (hchron : List.Chain' (· ≤ ·) (cs.map Call.time)) :
    (runCalls (Limiter.New n w) cs).1.countP (fun p =>
        (p.1.key == k) && p.2 && decide (a < p.1.time) &&
          decide (p.1.time ≤ a + (Limiter.New n w).window)) ≤
      (Limiter.New n w).limit ∧
    (∀ (l : Limiter) (key : String) (now : Int),
      (Limiter.Allow l key now).1 = false →
      ∀ (k' : String) (t : Int),
        t ∈ (Limiter.Allow l key now).2.attempts k' →
        t ∈ l.attempts k') := by
  constructor
  · have hpair : List.Pairwise (· ≤ ·) (cs.map Call.time) :=
      List.chain'_iff_pairwise.mp hchron
    have := limiter_run_bound k a (Limiter.New n w).window
      (Limiter.New n w).limit cs (Limiter.New n w) 0 rfl rfl hpair
      (Nat.zero_le _) (Or.inl (Nat.zero_le _))
    simpa using this
  · intro l key now h k' t ht
    exact allow_false_records_nothing l key now h k' t ht

/-- Witness for C2: limit 2, window 60, four chronological calls on one
key; at most 2 return true inside the window. -/
theorem C2_limiter_window_bound_witness :
    (runCalls (Limiter.New 2 60)
        [⟨"a", 0⟩, ⟨"a", 1⟩, ⟨"a", 2⟩, ⟨"a", 61⟩]).1.countP (fun p =>
        (p.1.key == "a") && p.2 && decide ((-1 : Int) < p.1.time) &&
          decide (p.1.time ≤ -1 + (Limiter.New 2 60).window)) ≤
      (Limiter.New 2 60).limit :=
  (C2_limiter_window_bound 2 60 [⟨"a", 0⟩, ⟨"a", 1⟩, ⟨"a", 2⟩, ⟨"a", 61⟩]
    "a" (-1)
    (by norm_num [List.chain'_cons, List.chain'_singleton])).1

/-- Claim C3: for `TriggerTopic(topic, payload, dry_run = true)` the
service performs the store lookup for the normalized topic and returns
the number of targets found, and the state (in particular the dispatcher
queue) is unchanged. -/
theorem C3_triggerTopic_dryRun_no_enqueue (st : ServiceState) (topic : String)
    (payload : List Nat) :
    TriggerTopic st topic payload true =
      ((ListForTopic st.table (NormalizeTopic topic)).length, st) := rfl

/-- Claim C8, counterexample: with an empty configured value and an
empty input, the input equals the configured value yet both validators
return false, so the claimed equivalence with plain equality fails at
this boundary input. -/
theorem C8_counterexample_empty_config :
    ("" : String) = "" ∧
    ValidateUICode { HubUICode := "", HubSecret := "" } "" = false ∧
    ValidateHubSecret { HubUICode := "", HubSecret := "" } "" = false := by
  refine ⟨rfl, rfl, rfl⟩

/-- Claim C8, amended: the validators return true iff the configured
value is non-empty and the input equals it; hence when the configured
value is empty they return false for every input (fail-closed). -/
theorem C8_validate_iff (cfg : ServiceConfig) (code secret : String) :
    (ValidateUICode cfg code = true ↔
      (cfg.HubUICode ≠ "" ∧ code = cfg.HubUICode)) ∧
    (ValidateHubSecret cfg secret = true ↔
      (cfg.HubSecret ≠ "" ∧ secret = cfg.HubSecret)) :=
  ⟨secureCompare_eq_true cfg.HubUICode code,
   secureCompare_eq_true cfg.HubSecret secret⟩

/-- Witness for C8 at a concrete configuration and inputs. -/
theorem C8_validate_iff_witness :
    (ValidateUICode ⟨"abc", "sec"⟩ "abc" = true ↔
      ("abc" : String) ≠ "" ∧ ("abc" : String) = "abc") ∧
    (ValidateHubSecret ⟨"abc", "sec"⟩ "nope" = true ↔
      ("sec" : String) ≠ "" ∧ ("nope" : String) = "sec") :=
  C8_validate_iff ⟨"abc", "sec"⟩ "abc" "nope"

/-- Claim C9: a subscriptions/me request whose endpoint query parameter
trims to the empty string is answered 200 with status inactive and empty
topics, and the store is not queried. -/
theorem C9_subscriptionMe_blank_endpoint (table : List StoreRow) (q : String)
    (h : goTrimSpace q = "") :
    subscriptionMe table q = ((200, "inactive", []), false) := by
  unfold subscriptionMe
  simp [h]

/-- Claim C6, counterexample: a subscribe request that supplies only the
blank topic "   " (with valid credentials and keys) is not rejected: the
handler stores it, with the whitespace topic kept verbatim. -/
theorem C6_counterexample_blank_topic_stored :
    (subscribeHandler ⟨"abc", "s"⟩ (Limiter.New 5 60) "1.2.3.4"
        (some ⟨some ⟨"https://p/1", "K", "A"⟩, "   ", "abc", "", "", "", "", ""⟩)
        [] 0).1 = SubscribeStatus.ok true ["   "] ∧
    (subscribeHandler ⟨"abc", "s"⟩ (Limiter.New 5 60) "1.2.3.4"
        (some ⟨some ⟨"https://p/1", "K", "A"⟩, "   ", "abc", "", "", "", "", ""⟩)
        [] 0).2.2 = [⟨"https://p/1", "K", "A", ["   "], 0, 0⟩] ∧
    ("   " : String) ≠ "" := by
  refine ⟨by decide, by decide, by decide⟩

/-- Claim C6, amended: a subscribe request that is stored carries the
singleton topic list of its normalized topic: the literal "default" when
the request supplies no topic (empty string), and the supplied topic
verbatim otherwise.  In particular a blank or whitespace-only topic such
as "   " is stored verbatim, not rejected. -/
theorem C6_topic_normalization (cfg : ServiceConfig) (l : Limiter)
    (ip : String) (req : SubscribeRequest) (table : List StoreRow) (now : Int)
    (st : SubscribeStatus) (l' : Limiter) (table' : List StoreRow)
    (h : subscribeHandler cfg l ip (some req) table now = (st, l', table'))
    (c : Bool) (tps : List String) (hok : st = SubscribeStatus.ok c tps) :
    tps = [NormalizeTopic req.topic] ∧
    (req.topic = "" → tps = [DefaultTopic]) ∧
    (req.topic ≠ "" → tps = [req.topic]) ∧
    ∃ r ∈ table', r.topics = [NormalizeTopic req.topic] := by
  subst hok
  simp only [subscribeHandler] at h
  split at h
  · exact absurd (congrArg Prod.fst h) (by simp)
  · split at h
    · exact absurd (congrArg Prod.fst h) (by simp)
    · split at h
      · exact absurd (congrArg Prod.fst h) (by simp)
      · next sub heq =>
        have hfst := congrArg Prod.fst h
        have htab := congrArg (fun p => p.2.2) h
        simp only at hfst htab
        injection hfst with hc htps
        have htop := buildSubscription_topics req (NormalizeTopic req.topic)
          sub heq
        refine ⟨?_, ?_, ?_, ?_⟩
        · rw [← htps, htop]
        · intro h0
          rw [← htps, htop]
          simp [NormalizeTopic, h0]
        · intro h0
          rw [← htps, htop]
          simp [NormalizeTopic, h0]
        · obtain ⟨r, hr, -, -, -, hrt, -⟩ :=
            upsert_exists_row table sub now
          refine ⟨r, ?_, ?_⟩
          · rw [← htab]
            exact hr
          · rw [hrt, htop]

/-- Witness for C6: a request with topic "x" is stored with topics
equal to the singleton of its normalized topic. -/
theorem C6_topic_normalization_witness :
    (["x"] : List String) = [NormalizeTopic "x"] ∧
    ∃ r ∈ (subscribeHandler ⟨"abc", "s"⟩ (Limiter.New 5 60) "1.2.3.4"
        (some ⟨some ⟨"https://p/1", "K", "A"⟩, "x", "abc", "", "", "", "", ""⟩)
        [] 0).2.2, r.topics = [NormalizeTopic "x"] := by
  have h := C6_topic_normalization ⟨"abc", "s"⟩ (Limiter.New 5 60) "1.2.3.4"
    ⟨some ⟨"https://p/1", "K", "A"⟩, "x", "abc", "", "", "", "", ""⟩ [] 0
    _ _ _ rfl true ["x"] (by decide)
  exact ⟨h.1.symm ▸ rfl, h.2.2.2⟩

/-- Claim C7, counterexample: a subscribe request supplying both the
nested subscription object (with a blank auth) and a flat auth field is
built by mixing the two: endpoint and p256dh come from the nested
object, auth from the flat field. -/
theorem C7_counterexample_nested_flat_mixed :
    buildSubscription
        ⟨some ⟨"https://e", "K", ""⟩, "", "c", "", "", "A", "", ""⟩ "default" =
      some ⟨"https://e", "K", "A", ["default"]⟩ ∧
    goTrimSpace (PushSubscriptionBody.keysAuth ⟨"https://e", "K", ""⟩) = "" ∧
    ("A" : String) ≠ "" := by
  refine ⟨by decide, by decide, by decide⟩

/-- Claim C7, amended: the parser tries the nested object first field by
field.  When the nested object supplies non-blank endpoint, p256dh and
auth, the subscription is built entirely from the nested object and the
flat fields are ignored; a field that is blank in the nested object
falls back to the corresponding flat value. -/
theorem C7_buildSubscription_nested_first (req : SubscribeRequest)
    (n : PushSubscriptionBody) (topic : String)
    (hsub : req.subscription = some n) :
    (goTrimSpace n.endpoint ≠ "" → goTrimSpace n.keysP256dh ≠ "" →
      goTrimSpace n.keysAuth ≠ "" →
      buildSubscription req topic =
        some ⟨goTrimSpace n.endpoint, goTrimSpace n.keysP256dh,
              goTrimSpace n.keysAuth, [topic]⟩) ∧
    (∀ s, buildSubscription req topic = some s →
      s.Endpoint = (if goTrimSpace n.endpoint = "" then
        goTrimSpace req.endpoint else goTrimSpace n.endpoint) ∧
      s.P256DH = (if goTrimSpace n.keysP256dh = "" then
        goTrimSpace (firstNonEmpty [req.p256dh, req.keysP256dh])
        else goTrimSpace n.keysP256dh) ∧
      s.Auth = (if goTrimSpace n.keysAuth = "" then
        goTrimSpace (firstNonEmpty [req.auth, req.keysAuth])
        else goTrimSpace n.keysAuth)) := by
  have hn : nestedFields req =
      (goTrimSpace n.endpoint, goTrimSpace n.keysP256dh,
       goTrimSpace n.keysAuth) := by
    simp [nestedFields, hsub]
  constructor
  · intro he hp ha
    have hE : builtEndpoint req = goTrimSpace n.endpoint := by
      simp [builtEndpoint, hn, he]
    have hP : builtP256dh req = goTrimSpace n.keysP256dh := by
      simp [builtP256dh, hn, hp]
    have hA : builtAuth req = goTrimSpace n.keysAuth := by
      simp [builtAuth, hn, ha]
    simp [buildSubscription, hE, hP, hA, he, hp, ha]
  · intro s hs
    simp only [buildSubscription] at hs
    split at hs
    · exact Option.noConfusion hs
    · have h1 := Option.some.inj hs
      subst h1
      refine ⟨?_, ?_, ?_⟩ <;>
        simp [builtEndpoint, builtP256dh, builtAuth, hn]

/-- Witness for C7 at a request with a fully non-blank nested object and
conflicting flat fields. -/
theorem C7_buildSubscription_nested_first_witness :
    buildSubscription
        ⟨some ⟨"https://e", "K", "A"⟩, "", "c", "https://f", "K2", "A2",
         "", ""⟩ "default" =
      some ⟨goTrimSpace "https://e", goTrimSpace "K", goTrimSpace "A",
            ["default"]⟩ :=
  (C7_buildSubscription_nested_first
    ⟨some ⟨"https://e", "K", "A"⟩, "", "c", "https://f", "K2", "A2", "", ""⟩
    ⟨"https://e", "K", "A"⟩ "default" rfl).1
    (by decide) (by decide) (by decide)

/-- Claim C10: when the rate limiter admits the client IP of a subscribe
request, the limiter state after the handler is exactly the post-Allow
state, which already records the attempt timestamp for that IP; this
holds for every body (including bodies that later fail decoding, the
access-code check, or validation), so failed requests still consume one
slot and the limiter is never rolled back. -/
theorem C10_subscribe_consumes_slot (cfg : ServiceConfig) (l : Limiter)
    (ip : String) (body : Option SubscribeRequest) (table : List StoreRow)
    (now : Int) (h : (Limiter.Allow l ip now).1 = true) :
    (subscribeHandler cfg l ip body table now).2.1 = (Limiter.Allow l ip now).2 ∧
    now ∈ ((subscribeHandler cfg l ip body table now).2.1).attempts ip := by
  have hmem := allow_true_mem_attempts l ip now h
  have hl : (subscribeHandler cfg l ip body table now).2.1 =
      (Limiter.Allow l ip now).2 := by
    simp only [subscribeHandler, h]
    cases body with
    | none => simp
    | some payload =>
      simp only []
      split
      · simp
      · split
        · simp
        · split <;> simp
  exact ⟨hl, hl ▸ hmem⟩

/-- Witness for C10: an admitted request rejected as unauthorized (wrong
access code) still leaves the attempt timestamp recorded. -/
theorem C10_subscribe_consumes_slot_witness :
    (subscribeHandler ⟨"abc", "s"⟩ (Limiter.New 5 60) "1.2.3.4"
        (some ⟨some ⟨"https://p/1", "K", "A"⟩, "", "wrong", "", "", "", "", ""⟩)
        [] 0).2.1 = (Limiter.Allow (Limiter.New 5 60) "1.2.3.4" 0).2 ∧
    (0 : Int) ∈ ((subscribeHandler ⟨"abc", "s"⟩ (Limiter.New 5 60) "1.2.3.4"
        (some ⟨some ⟨"https://p/1", "K", "A"⟩, "", "wrong", "", "", "", "", ""⟩)
        [] 0).2.1).attempts "1.2.3.4" :=
  C10_subscribe_consumes_slot ⟨"abc", "s"⟩ (Limiter.New 5 60) "1.2.3.4"
    (some ⟨some ⟨"https://p/1", "K", "A"⟩, "", "wrong", "", "", "", "", ""⟩)
    [] 0 (by decide)

/-- Claim C4: `upsert` returns created = true iff no row with the
subscription endpoint existed immediately before; on endpoint collision
the table is mapped so that only the colliding rows have p256dh, auth,
topics replaced and updated_at refreshed (created_at and endpoint are
untouched by the update); with no collision the row is inserted with
created_at = updated_at = now. -/
theorem C4_upsert_semantics (table : List StoreRow) (s : Subscription)
    (now : Int) :
    ((UpsertSubscription table s now).1 = true ↔
      ∀ r ∈ table, r.endpoint ≠ s.Endpoint) ∧
    ((∃ r ∈ table, r.endpoint = s.Endpoint) →
      (UpsertSubscription table s now).2 =
        table.map (fun r =>
          if r.endpoint = s.Endpoint then
            { r with p256dh := s.P256DH, auth := s.Auth, topics := s.Topics,
                     updated_at := now }
          else r)) ∧
    ((∀ r ∈ table, r.endpoint ≠ s.Endpoint) →
      (UpsertSubscription table s now).2 =
        table ++ [{ endpoint := s.Endpoint, p256dh := s.P256DH,
                    auth := s.Auth, topics := s.Topics, created_at := now,
                    updated_at := now }]) := by
  refine ⟨?_, ?_, ?_⟩
  · simp only [UpsertSubscription, Bool.not_eq_true']
    constructor
    · intro h r hr
      intro he
      have : table.any (fun r => r.endpoint == s.Endpoint) = true :=
        List.any_eq_true.mpr ⟨r, hr, by simp [he]⟩
      rw [this] at h
      exact Bool.noConfusion h
    · intro h
      have : table.any (fun r => r.endpoint == s.Endpoint) = false := by
        rw [Bool.eq_false_iff]
        intro hany
        obtain ⟨r, hr, hre⟩ := List.any_eq_true.mp hany
        exact h r hr (by simpa using hre)
      rw [this]
  · intro ⟨r, hr, hre⟩
    have hany : table.any (fun r => r.endpoint == s.Endpoint) = true :=
      List.any_eq_true.mpr ⟨r, hr, by simp [hre]⟩
    simp only [UpsertSubscription, hany, if_true]
    apply List.map_congr_left
    intro x _
    by_cases hx : x.endpoint = s.Endpoint <;> simp [hx]
  · intro h
    have : table.any (fun r => r.endpoint == s.Endpoint) = false := by
      rw [Bool.eq_false_iff]
      intro hany
      obtain ⟨r, hr, hre⟩ := List.any_eq_true.mp hany
      exact h r hr (by simpa using hre)
    simp only [UpsertSubscription, this, Bool.false_eq_true, if_false]

/-- Witness for C4 instantiated at a one-row table and a colliding
subscription: not created, and the row is updated in place keeping its
original created_at. -/
theorem C4_upsert_semantics_witness :
    ((UpsertSubscription [⟨"e", "k0", "a0", ["t"], 1, 1⟩]
        ⟨"e", "k", "a", ["default"]⟩ 5).1 = true ↔
      ∀ r ∈ [(⟨"e", "k0", "a0", ["t"], 1, 1⟩ : StoreRow)],
        r.endpoint ≠ "e") ∧
    ((∃ r ∈ [(⟨"e", "k0", "a0", ["t"], 1, 1⟩ : StoreRow)],
        r.endpoint = "e") →
      (UpsertSubscription [⟨"e", "k0", "a0", ["t"], 1, 1⟩]
          ⟨"e", "k", "a", ["default"]⟩ 5).2 =
        [(⟨"e", "k0", "a0", ["t"], 1, 1⟩ : StoreRow)].map (fun r =>
          if r.endpoint = "e" then
            { r with p256dh := "k", auth := "a", topics := ["default"],
                     updated_at := 5 }
          else r)) ∧
    ((∀ r ∈ [(⟨"e", "k0", "a0", ["t"], 1, 1⟩ : StoreRow)],
        r.endpoint ≠ "e") →
      (UpsertSubscription [⟨"e", "k0", "a0", ["t"], 1, 1⟩]
          ⟨"e", "k", "a", ["default"]⟩ 5).2 =
        [⟨"e", "k0", "a0", ["t"], 1, 1⟩] ++
          [⟨"e", "k", "a", ["default"], 5, 5⟩]) :=
  C4_upsert_semantics [⟨"e", "k0", "a0", ["t"], 1, 1⟩]
    ⟨"e", "k", "a", ["default"]⟩ 5

/-- Witness for C9 at the whitespace-only query string. -/
theorem C9_subscriptionMe_blank_endpoint_witness :
    goTrimSpace "   " = "" ∧
    subscriptionMe
        [{ endpoint := "https://p/1", p256dh := "K", auth := "A",
           topics := ["default"], created_at := 0, updated_at := 0 }] "   " =
      ((200, "inactive", []), false) :=
  ⟨by decide, C9_subscriptionMe_blank_endpoint _ "   " (by decide)⟩

end LecturesOnTap
